import Mathlib

/-!
Shallow embedding of the release-notes aggregation scripts `rssfeed.py` and
`RSSFEED.py`.  Text is modelled as `List Char` (Python `str` is a sequence of
Unicode code points); bytes as `List Nat` (each < 256).  Python library calls
made by the scripts (`html.unescape`, `str.encode`/`bytes.decode`,
BeautifulSoup traversal, `dateutil.parser.parse`, `datetime.fromisoformat`)
are modelled to the fidelity the scripts exercise; each model carries a doc
comment stating exactly what it reproduces.
-/

/-- Python default whitespace for `str.strip()` (ASCII part; the scripts only
strip heading text, which is ASCII in every theorem below). -/
def pySpace (c : Char) : Bool :=
  c = ' ' ∨ c = '\t' ∨ c = '\n' ∨ c = '\x0d' ∨ c = '\x0b' ∨ c = '\x0c'

/-- Python `str.strip()`: drop leading and trailing whitespace. -/
def pyStrip (s : List Char) : List Char :=
  ((s.dropWhile pySpace).reverse.dropWhile pySpace).reverse

/-- Python `str.lower()` restricted to ASCII letters (the only case the
scripts exercise: comparing heading text against the ASCII literal
`"version"`). -/
def pyLower (c : Char) : Char :=
  if 65 ≤ c.toNat ∧ c.toNat ≤ 90 then Char.ofNat (c.toNat + 32) else c

/-- A representative subset of the HTML5 named character references used by
`html.unescape` (full table in `html.entities.html5`).  Only consulted on
inputs that actually contain an ampersand; every theorem below evaluates the
normalizer on ampersand-free text, where the table is never reached. -/
def namedRefs : List (List Char × Char) :=
  [("amp;".data, '&'), ("lt;".data, '<'), ("gt;".data, '>'),
   ("quot;".data, '"'), ("nbsp;".data, Char.ofNat 160),
   ("ldquo;".data, Char.ofNat 8220), ("rdquo;".data, Char.ofNat 8221),
   ("lsquo;".data, Char.ofNat 8216), ("rsquo;".data, Char.ofNat 8217)]

/-- Decimal digits of a numeric character reference. -/
def takeDigits (s : List Char) : List Char := s.takeWhile (fun c => c.isDigit)

/-- Numeric value of a digit string. -/
def digitsToNat (ds : List Char) : Nat :=
  ds.foldl (fun acc c => acc * 10 + (c.toNat - 48)) 0

/-- Substitution pass of Python `html.unescape` (`_charref.sub`), modelled for
named references from `namedRefs` (with trailing semicolon) and decimal
numeric references `&#NNN;` with a valid scalar value; anything else copies
the ampersand through unchanged, as CPython does for unrecognized references.
`fuel` only bounds the recursion; every step consumes at least one input
character, so `fuel := s.length` (see `htmlUnescape`) never runs out. -/
def htmlUnescapeScan : Nat → List Char → List Char
  | 0, s => s
  | _ + 1, [] => []
  | fuel + 1, c :: rest =>
    if c = '&' then
      match rest with
      | '#' :: ds =>
        let digits := takeDigits ds
        match ds.drop digits.length with
        | ';' :: tail =>
          if digits ≠ [] ∧ Nat.isValidChar (digitsToNat digits) then
            Char.ofNat (digitsToNat digits) :: htmlUnescapeScan fuel tail
          else '&' :: htmlUnescapeScan fuel rest
        | _ => '&' :: htmlUnescapeScan fuel rest
      | _ =>
        match namedRefs.find? (fun p => p.1.isPrefixOf rest) with
        | some p => p.2 :: htmlUnescapeScan fuel (rest.drop p.1.length)
        | none => '&' :: htmlUnescapeScan fuel rest
    else c :: htmlUnescapeScan fuel rest

/-- Python `html.unescape`: the CPython implementation returns its argument
unchanged when it contains no `&` and otherwise runs the reference
substitution. -/
def htmlUnescape (s : List Char) : List Char :=
  if s.contains '&' then htmlUnescapeScan s.length s else s

/-- Python `text.encode('latin-1', errors='ignore')`: code points ≤ 0xFF map
to the identical byte, larger code points are dropped. -/
def latin1EncodeIgnore (s : List Char) : List Nat :=
  s.filterMap (fun c => if c.toNat ≤ 255 then some c.toNat else none)

/-- Decoder action of one byte arriving with no multi-byte sequence pending:
either an ASCII character is emitted, or a lead byte opens a pending state
`(remaining continuation count, accumulated value, lower and upper bound for
the next continuation byte)`, or the byte is malformed and dropped.  The
bounds on the first continuation byte after the leads `E0/ED/F0/F4` exclude
overlong forms, surrogates and values above U+10FFFF, as in CPython. -/
def utf8Lead (b : Nat) : List Char × Option (Nat × Nat × Nat × Nat) :=
  if b < 128 then ([Char.ofNat b], none)
  else if 194 ≤ b ∧ b ≤ 223 then ([], some (1, b - 192, 128, 191))
  else if b = 224 then ([], some (2, 0, 160, 191))
  else if 225 ≤ b ∧ b ≤ 236 then ([], some (2, b - 224, 128, 191))
  else if b = 237 then ([], some (2, 13, 128, 159))
  else if 238 ≤ b ∧ b ≤ 239 then ([], some (2, b - 224, 128, 191))
  else if b = 240 then ([], some (3, 0, 144, 191))
  else if 241 ≤ b ∧ b ≤ 243 then ([], some (3, b - 240, 128, 191))
  else if b = 244 then ([], some (3, 4, 128, 143))
  else ([], none)

/-- State-machine core of `bytes.decode('utf-8', errors='ignore')`:
a byte inside the expected continuation range extends the pending sequence
(emitting the decoded character when it completes); a byte outside the range
abandons the malformed pending sequence and is reprocessed as a fresh lead,
and a truncated sequence at end of input is dropped — both exactly the
outputs of CPython's maximal-subpart deletion with `errors='ignore'`. -/
def utf8DecodeAux : Option (Nat × Nat × Nat × Nat) → List Nat → List Char
  | _, [] => []
  | none, b :: rest =>
    let (out, st) := utf8Lead b
    out ++ utf8DecodeAux st rest
  | some (n, acc, lo, hi), b :: rest =>
    if lo ≤ b ∧ b ≤ hi then
      if n ≤ 1 then Char.ofNat (acc * 64 + (b - 128)) :: utf8DecodeAux none rest
      else utf8DecodeAux (some (n - 1, acc * 64 + (b - 128), 128, 191)) rest
    else
      let (out, st) := utf8Lead b
      out ++ utf8DecodeAux st rest

/-- Python `bytes.decode('utf-8', errors='ignore')`. -/
def utf8DecodeIgnore (l : List Nat) : List Char := utf8DecodeAux none l

/-- Python `str.replace(a, b)` for a one-character pattern and one-character
replacement: substitute every occurrence, i.e. a character map. -/
def pyReplaceChar (a b : Char) (s : List Char) : List Char :=
  s.map (fun c => if c = a then b else c)

/-- The double-quote glyph list of `normalize_quotes`, exactly as written in
the source (the `\u` escapes and the literal glyphs denote the same code
points, so the list has these eight entries). -/
def smartDoubles : List Char :=
  [Char.ofNat 8220, Char.ofNat 8221, Char.ofNat 8220, Char.ofNat 8221,
   Char.ofNat 8222, Char.ofNat 8223, Char.ofNat 8222, Char.ofNat 8223]

/-- The single-quote glyph list of `normalize_quotes`, exactly as written in
the source. -/
def smartSingles : List Char :=
  [Char.ofNat 8216, Char.ofNat 8217, Char.ofNat 8216, Char.ofNat 8217]

/-- The two replacement loops of `normalize_quotes`: each double-quote glyph
is replaced with `"` (code 34), then each single-quote glyph with the plain
apostrophe (code 39). -/
def quoteFold (t : List Char) : List Char :=
  smartSingles.foldl (fun acc ch => pyReplaceChar ch (Char.ofNat 39) acc)
    (smartDoubles.foldl (fun acc ch => pyReplaceChar ch (Char.ofNat 34) acc) t)

/-- `normalize_quotes` from both scripts (the two files contain the identical
function): `html.unescape`, then the best-effort
`encode('latin-1', errors='ignore').decode('utf-8', errors='ignore')`
re-decode (with `errors='ignore'` on both sides this never raises, so the
bare `except: pass` is dead code), then the two quote-replacement loops. -/
def normalize_quotes (s : List Char) : List Char :=
  quoteFold (utf8DecodeIgnore (latin1EncodeIgnore (htmlUnescape s)))

/-- String-typed wrapper for `normalize_quotes`. -/
def normalizeQuotesS (s : String) : String := String.mk (normalize_quotes s.data)


/-- Specification-side description of the two replacement loops: a single
positional character substitution. -/
def quoteCharSpec (c : Char) : Char :=
  if c ∈ smartDoubles then Char.ofNat 34
  else if c ∈ smartSingles then Char.ofNat 39 else c


/-- A Python `datetime` value: the wall-clock fields are abstracted to a
`Nat` tag (the scripts never inspect them), and `tz` models `tzinfo`
(`none` = naive, `some o` = a fixed utcoffset, with `0` = `timezone.utc`). -/
structure PyDateTime where
  fields : Nat
  tz : Option Int
deriving DecidableEq, Repr

/-- `datetime.now(timezone.utc)` at abstract clock reading `clock`: always
timezone-aware with UTC attached. -/
def utcNow (clock : Nat) : PyDateTime := ⟨clock, some 0⟩

/-- `re.search(r'\(([^)]+)\)', s)`: the leftmost match of an opening
parenthesis followed by one or more non-`)` characters and a closing
parenthesis; returns the capture group.  (`[^)]+` cannot cross a `)`, so the
group runs to the first `)` after the `(`; if the group would be empty or no
`)` follows, the regex engine retries from the next position, which the
recursion mirrors.) -/
def parenGroup : List Char → Option (List Char)
  | [] => none
  | c :: rest =>
    if c = '(' then
      let grp := rest.takeWhile (fun x => x ≠ ')')
      if grp ≠ [] ∧ rest.drop grp.length ≠ [] then some grp
      else parenGroup rest
    else parenGroup rest

/-- `parse_version_date` (identical in both scripts): search the version text
for a parenthesized group; if found, hand it to `dateutil.parser.parse`
(modelled by the oracle `dateParse`, `none` meaning the parser raised, which
the scripts catch); attach UTC to a naive result; on no match or parse
failure fall back to `datetime.now(timezone.utc)`. -/
def parse_version_date (dateParse : List Char → Option PyDateTime) (clock : Nat)
    (version_text : List Char) : PyDateTime :=
  match parenGroup version_text with
  | some g =>
    match dateParse g with
    | some dt => if dt.tz = none then { dt with tz := some 0 } else dt
    | none => utcNow clock
  | none => utcNow clock


/-- A parsed HTML/XML node as produced by BeautifulSoup: an element (`Tag`)
with attributes and children, or a text node (`NavigableString`). -/
inductive Node where
  | tag (name : String) (attrs : List (String × String)) (children : List Node)
  | text (s : String)

mutual

/-- The `NavigableString` descendants of a node, in document order
(bs4 `Tag.strings`). -/
def stringsOfNode : Node → List String
  | .text s => [s]
  | .tag _ _ ch => stringsOfList ch

def stringsOfList : List Node → List String
  | [] => []
  | n :: rest => stringsOfNode n ++ stringsOfList rest

end

/-- bs4 `get_text(strip=True)`: each descendant string stripped of
surrounding whitespace and concatenated (empty pieces vanish under
concatenation). -/
def getTextStrip (n : Node) : List Char :=
  ((stringsOfNode n).map (fun s => pyStrip s.data)).flatten

/-- Membership test of `sib.name in ['h2', 'h3', 'h4']`. -/
def isHeadingName (nm : String) : Bool := nm = "h2" ∨ nm = "h3" ∨ nm = "h4"

/-- The predicate of the first header-selection pass:
`tag.get_text(strip=True).lower().startswith('version')`. -/
def versionPred (n : Node) : Bool :=
  "version".data.isPrefixOf ((getTextStrip n).map pyLower)

/-- Heading test on one node: a `h2`/`h3`/`h4` element satisfying `p` is
returned together with its following siblings. -/
def headingHit (p : Node → Bool) (n : Node) (rest : List Node) :
    Option (Node × List Node) :=
  match n with
  | Node.tag nm attrs ch =>
    if isHeadingName nm ∧ p (Node.tag nm attrs ch) then
      some (Node.tag nm attrs ch, rest)
    else none
  | Node.text _ => none

mutual

/-- First `h2`/`h3`/`h4` element in document (preorder) order satisfying `p`,
together with the list of its following siblings — the combination of bs4
`find_all(['h2','h3','h4'])` (which walks descendants in document order) and
`header.next_siblings` (which walks the remainder of the parent's child
list). -/
def findHeadingL (p : Node → Bool) : List Node → Option (Node × List Node)
  | [] => none
  | n :: rest =>
    match headingHit p n rest with
    | some r => some r
    | none =>
      match findHeadingN p n with
      | some r => some r
      | none => findHeadingL p rest

/-- Descend into a node's children (document order continues there). -/
def findHeadingN (p : Node → Bool) : Node → Option (Node × List Node)
  | Node.text _ => none
  | Node.tag _ _ ch => findHeadingL p ch

end

/-- The `break` condition of the sibling-collection loop:
`isinstance(sib, Tag) and sib.name in ['h2','h3','h4']`. -/
def isBoundary : Node → Bool
  | Node.tag nm _ _ => isHeadingName nm
  | Node.text _ => false

/-- The sibling-collection loop
`for sib in header.next_siblings: if <heading>: break; fragment.append(sib)`
with the ACTUAL BeautifulSoup semantics.  `next_siblings` is a generator
(`i = self.next_sibling; while i: yield i; i = i.next_sibling`), and
`fragment.append(sib)` calls `insert`, which first `extract()`s `sib` from
its tree (setting `sib.next_sibling = None`) and then appends it as the last
child of `fragment` (leaving `sib.next_sibling = None`).  When the generator
resumes it reads `i.next_sibling` from the already-moved node, gets `None`,
and stops.  Hence the loop body runs at most once: the fragment is empty if
the first following sibling is a heading (the `break` fires first), and
otherwise contains exactly that first sibling. -/
def collectFragment : List Node → List Node
  | [] => []
  | s :: _ => if isBoundary s then [] else [s]

/-- Specification-side description of the same loop (`spec.md` §4.2 step 3):
every following sibling up to, and exclusive of, the next heading. -/
def collectUntilHeading (sibs : List Node) : List Node :=
  sibs.takeWhile (fun n => !(isBoundary n))

/-- `href.startswith(('http://', 'https://', '#', 'mailto:'))`. -/
def urlAbsolute (href : List Char) : Bool :=
  "http://".data.isPrefixOf href ∨ "https://".data.isPrefixOf href ∨
    "#".data.isPrefixOf href ∨ "mailto:".data.isPrefixOf href

mutual

/-- The link-rewriting loop: every `<a>` descendant carrying an `href`
attribute whose value is not absolute gets `urljoin(url, href)` (the `urljoin`
function of `urllib.parse` is passed in abstractly as `uj`).  Parsed HTML has
at most one `href` per tag, so the per-key map coincides with the dict-style
`a['href'] = ...` assignment. -/
def rewriteNode (uj : String → String → String) (base : String) : Node → Node
  | .text s => .text s
  | .tag nm attrs ch =>
    let attrs2 :=
      if nm = "a" ∧ attrs.any (fun kv => kv.1 = "href") then
        attrs.map (fun kv =>
          if kv.1 = "href" then
            (kv.1, if urlAbsolute kv.2.data then kv.2 else uj base kv.2)
          else kv)
      else attrs
    .tag nm attrs2 (rewriteList uj base ch)

def rewriteList (uj : String → String → String) (base : String) :
    List Node → List Node
  | [] => []
  | n :: rest => rewriteNode uj base n :: rewriteList uj base rest

end

/-- Text-node escaping of bs4 `str()` with its default minimal formatter. -/
def escMinText (s : List Char) : List Char :=
  s.flatMap (fun c =>
    if c = '&' then "&amp;".data
    else if c = '<' then "&lt;".data
    else if c = '>' then "&gt;".data else [c])

/-- Attribute-value escaping of bs4 `str()` (minimal formatter plus quote). -/
def escAttrVal (s : List Char) : List Char :=
  s.flatMap (fun c =>
    if c = '&' then "&amp;".data
    else if c = '<' then "&lt;".data
    else if c = '>' then "&gt;".data
    else if c = '"' then "&quot;".data else [c])

/-- Attribute rendering of bs4 `str()`: ` key="value"`. -/
def serializeAttrs (attrs : List (String × String)) : List Char :=
  attrs.flatMap (fun kv =>
    ' ' :: (kv.1.data ++ '=' :: '"' :: escAttrVal kv.2.data ++ ['"']))

mutual

/-- `str(fragment)` for the node shapes the scripts produce: open tag with
attributes, serialized children, close tag; text escaped minimally.  (Void
elements and other formatter subtleties are not exercised by any input
below.) -/
def serializeNode : Node → List Char
  | .text s => escMinText s.data
  | .tag nm attrs ch =>
    '<' :: (nm.data ++ serializeAttrs attrs ++ '>' :: serializeList ch) ++
      '<' :: '/' :: (nm.data ++ ['>'])

def serializeList : List Node → List Char
  | [] => []
  | n :: rest => serializeNode n ++ serializeList rest

end

/-- The exception raised at `header.next_siblings` when no heading exists
(`header` is `None`).  CPython's message wraps the names in quotes; the text
is abstract in this model — no theorem depends on it. -/
def attrErrMsg : String := "AttributeError: NoneType object has no attribute next_siblings"

/-- Shared body of `fetch_latest_release_html` once a header was found:
heading text via `get_text(strip=True)`, the collected fragment with links
rewritten, serialized and passed through `normalize_quotes`. -/
def extractFrom (uj : String → String → String) (url : String) (h : Node)
    (sibs : List Node) : String × String :=
  (String.mk (getTextStrip h),
   normalizeQuotesS (String.mk (serializeList (rewriteList uj url (collectFragment sibs)))))

/-- The header-selection and extraction logic common to both scripts
(rssfeed.py lines 56–82, RSSFEED.py lines 56–73): first pass selects the
first `h2`/`h3`/`h4` whose stripped text lowercases to a `version` prefix;
the fallback pass takes the first `h2`/`h3`/`h4` of any text; if neither
exists, the scripts compute the dead fallback label (`'Release'`) and then
unconditionally dereference `header.next_siblings` with `header = None`,
raising `AttributeError` — modelled as the error case. -/
def extractCore (uj : String → String → String) (doc : List Node)
    (url : String) : Except String (String × String) :=
  match findHeadingL versionPred doc with
  | some (h, sibs) => .ok (extractFrom uj url h sibs)
  | none =>
    match findHeadingL (fun _ => true) doc with
    | some (h, sibs) => .ok (extractFrom uj url h sibs)
    | none => .error attrErrMsg

/-- A feed entry dict as built by both scripts:
`{'title': ..., 'link': ..., 'description': ..., 'pubDate': ...}`. -/
structure FeedEntry where
  title : String
  link : String
  description : String
  pubDate : PyDateTime
deriving DecidableEq, Repr

/-- `updated.replace('Z', '+00:00')`: every `Z` replaced (single-character
pattern, string replacement). -/
def pyReplaceZ (s : String) : String :=
  String.mk (s.data.flatMap (fun c => if c = 'Z' then "+00:00".data else [c]))

/-- The first `<entry>` element of a fetched Atom document, as accessed by
the scripts through bs4: `title`/`summary`/`updated` are the text of the
first matching child element (`none` when the element is absent, in which
case Python attribute access on `None` raises `AttributeError`);
`linkHref` is the `href` of the first `<link>` child when present. -/
structure AtomEntry where
  title : Option String
  linkHref : Option String
  summary : Option String
  updated : Option String
deriving DecidableEq, Repr

/-- `AttributeError` from accessing `.text` (or an attribute) on `None`; the
message text is abstract in this model. -/
def attrErrText : String := "AttributeError: NoneType object has no attribute text"

deriving instance DecidableEq for Except

namespace Rssfeed

/-- `fetch_latest_release_html` of rssfeed.py: the whole body (network fetch,
parse, extraction) sits inside `try/except Exception`, and any failure —
fetch, parse, or the missing-heading `AttributeError` — yields the
placeholder `('Error fetching content', normalize_quotes(f'<p>{e}</p>'))`.
The fetch-and-parse step is abstracted to an `Except`-valued input
(`.error e` = `requests.get`/`raise_for_status`/parsing raised `e`). -/
def fetch_latest_release_html (uj : String → String → String)
    (fetched : Except String (List Node)) (url : String) : String × String :=
  match fetched.bind (fun doc => extractCore uj doc url) with
  | .ok r => r
  | .error e => ("Error fetching content", normalizeQuotesS ("<p>" ++ e ++ "</p>"))

/-- The HTML-sources entry loop of rssfeed.py (lines 101–110): one entry per
source, unconditionally. -/
def buildHtmlEntries (uj : String → String → String)
    (dateParse : List Char → Option PyDateTime) (clock : Nat)
    (sources : List (String × String))
    (fetch : String → Except String (List Node)) : List FeedEntry :=
  sources.map (fun nu =>
    let vd := fetch_latest_release_html uj (fetch nu.2) nu.2
    { title := nu.1 ++ ": " ++ vd.1
      link := nu.2
      description := vd.2
      pubDate := parse_version_date dateParse clock vd.1.data })

/-- The GitHub-feed loop body of rssfeed.py (lines 112–134) for one feed.
The whole body is wrapped in `try/except`, whose handler prints a warning
and produces no entry; `entry_xml.updated`, `.summary` and `.title` are
accessed without a presence check, so an absent element raises
`AttributeError` inside the `try` (modelled by the `Except.error` branches);
only the `fromisoformat` call has an inner `try` falling back to
`datetime.now(timezone.utc)`.  An empty (falsy) summary string selects the
placeholder via `or`. -/
def githubEntries (iso : String → Option PyDateTime) (clock : Nat)
    (name feedUrl : String) (fetched : Except String (List AtomEntry)) :
    List FeedEntry :=
  let body : Except String (List FeedEntry) := do
    let doc ← fetched
    match doc.head? with
    | none => pure []
    | some entry => do
      let updated ← match entry.updated with
        | some u => Except.ok u
        | none => Except.error attrErrText
      let timestamp := match iso (pyReplaceZ updated) with
        | some t => t
        | none => utcNow clock
      let stext ← match entry.summary with
        | some s => Except.ok s
        | none => Except.error attrErrText
      let summary := if stext = "" then "See GitHub release for details." else stext
      let desc := "<p>" ++ normalizeQuotesS summary ++ "</p>"
      let href := entry.linkHref.getD feedUrl
      let t ← match entry.title with
        | some t => Except.ok t
        | none => Except.error attrErrText
      pure [{ title := name ++ ": " ++ t, link := href, description := desc,
              pubDate := timestamp }]
  match body with
  | .ok l => l
  | .error _ => []

end Rssfeed

namespace RSSFEED

/-- `fetch_latest_release_html` of RSSFEED.py: identical extraction logic but
NO `try/except` anywhere in the function — any fetch, parse or
missing-heading failure propagates to the caller. -/
def fetch_latest_release_html (uj : String → String → String)
    (fetched : Except String (List Node)) (url : String) :
    Except String (String × String) :=
  fetched.bind (fun doc => extractCore uj doc url)

/-- The HTML-sources entry loop of RSSFEED.py (lines 89–97): also without any
exception handling, so the first failing source aborts the whole run. -/
def buildHtmlEntries (uj : String → String → String)
    (dateParse : List Char → Option PyDateTime) (clock : Nat)
    (sources : List (String × String))
    (fetch : String → Except String (List Node)) : Except String (List FeedEntry) :=
  match sources with
  | [] => .ok []
  | nu :: rest => do
    let vd ← fetch_latest_release_html uj (fetch nu.2) nu.2
    let tail ← buildHtmlEntries uj dateParse clock rest fetch
    pure ({ title := nu.1 ++ ": " ++ vd.1
            link := nu.2
            description := vd.2
            pubDate := parse_version_date dateParse clock vd.1.data } :: tail)

/-- The GitHub-feed loop body of RSSFEED.py (lines 99–117) for one feed: no
outer `try/except` (a fetch failure propagates and aborts the run), guarded
access to `updated` and `summary` (absent or empty both degrade to `''`), no
placeholder summary text, and unguarded access to `entry_xml.title.text`. -/
def githubEntries (iso : String → Option PyDateTime) (clock : Nat)
    (name feedUrl : String) (fetched : Except String (List AtomEntry)) :
    Except String (List FeedEntry) := do
  let doc ← fetched
  match doc.head? with
  | none => pure []
  | some entry => do
    let updated := entry.updated.getD ""
    let timestamp :=
      if updated = "" then utcNow clock
      else match iso (pyReplaceZ updated) with
        | some t => t
        | none => utcNow clock
    let stext := entry.summary.getD ""
    let summary := normalizeQuotesS stext
    let t ← match entry.title with
      | some t => Except.ok t
      | none => Except.error attrErrText
    let href := entry.linkHref.getD feedUrl
    pure [{ title := name ++ ": " ++ t, link := href,
            description := "<p>" ++ summary ++ "</p>", pubDate := timestamp }]

end RSSFEED


/-- A stand-in for `urllib.parse.urljoin` in closed evaluations; the
documents below contain no relative links, so no theorem depends on it. -/
def ujStub : String → String → String := fun _ rel => rel

/-- A `dateutil.parser.parse` oracle on which every parse raises. -/
def dpNone : List Char → Option PyDateTime := fun _ => none

/-- A `dateutil.parser.parse` oracle that parses exactly
`March 3, 2024` to a naive datetime tagged 77. -/
def dpMarch : List Char → Option PyDateTime :=
  fun g => if g = "March 3, 2024".data then some ⟨77, none⟩ else none

/-- A `datetime.fromisoformat` oracle on which every parse raises. -/
def isoNone : String → Option PyDateTime := fun _ => none

/-- A `datetime.fromisoformat` oracle that parses exactly
`2024-03-03T12:00:00+00:00` to an aware datetime tagged 99. -/
def isoFix : String → Option PyDateTime :=
  fun s => if s = "2024-03-03T12:00:00+00:00" then some ⟨99, some 0⟩ else none

/-- The document of the spec's worked example: the first matching heading
`Version 2.1 (March 3, 2024)` followed by one paragraph, then another `h2`
with further content. -/
def c1ExampleDoc : List Node :=
  [Node.tag "h2" [] [Node.text "Version 2.1 (March 3, 2024)"],
   Node.tag "p" [] [Node.text "Fixed a bug."],
   Node.tag "h2" [] [Node.text "Version 2.0 (January 1, 2024)"],
   Node.tag "p" [] [Node.text "Old content."]]

/-- A document whose anchor heading is followed by TWO paragraphs before the
next heading. -/
def c1TwoParagraphDoc : List Node :=
  [Node.tag "h2" [] [Node.text "Version 2.1 (March 3, 2024)"],
   Node.tag "p" [] [Node.text "First fix."],
   Node.tag "p" [] [Node.text "Second fix."],
   Node.tag "h2" [] [Node.text "Version 2.0 (January 1, 2024)"]]

/-- The sibling list following the anchor heading of `c1TwoParagraphDoc`. -/
def c1TwoParagraphSibs : List Node :=
  [Node.tag "p" [] [Node.text "First fix."],
   Node.tag "p" [] [Node.text "Second fix."],
   Node.tag "h2" [] [Node.text "Version 2.0 (January 1, 2024)"]]

/-- A document containing no `h2`/`h3`/`h4` element at all. -/
def noHeadingDoc : List Node := [Node.tag "p" [] [Node.text "hello"]]

/-! Helper lemmas about the text normalizer. -/

theorem foldl_replace_nil (gs : List Char) (b : Char) :
    gs.foldl (fun acc ch => pyReplaceChar ch b acc) [] = [] := by
  induction gs with
  | nil => rfl
  | cons g gs ih => simpa [pyReplaceChar] using ih

theorem foldl_replace_cons (gs : List Char) (b c : Char) (t : List Char) :
    gs.foldl (fun acc ch => pyReplaceChar ch b acc) (c :: t)
      = gs.foldl (fun x ch => if x = ch then b else x) c
          :: gs.foldl (fun acc ch => pyReplaceChar ch b acc) t := by
  induction gs generalizing c t with
  | nil => rfl
  | cons g gs ih =>
    simp only [List.foldl_cons, pyReplaceChar, List.map_cons]
    rw [← pyReplaceChar]
    exact ih _ _

theorem quoteChar_step (c : Char) :
    smartSingles.foldl (fun x ch => if x = ch then Char.ofNat 39 else x)
      (smartDoubles.foldl (fun x ch => if x = ch then Char.ofNat 34 else x) c)
      = quoteCharSpec c := by
  by_cases h1 : c = Char.ofNat 8220
  · subst h1; decide
  by_cases h2 : c = Char.ofNat 8221
  · subst h2; decide
  by_cases h3 : c = Char.ofNat 8222
  · subst h3; decide
  by_cases h4 : c = Char.ofNat 8223
  · subst h4; decide
  by_cases h5 : c = Char.ofNat 8216
  · subst h5; decide
  by_cases h6 : c = Char.ofNat 8217
  · subst h6; decide
  simp [smartDoubles, smartSingles, quoteCharSpec, h1, h2, h3, h4, h5, h6]

theorem quoteFold_eq_map (t : List Char) : quoteFold t = t.map quoteCharSpec := by
  induction t with
  | nil => simp [quoteFold, foldl_replace_nil]
  | cons c t ih =>
    rw [quoteFold, foldl_replace_cons, foldl_replace_cons, quoteChar_step,
      List.map_cons, ← quoteFold, ih]

theorem quoteCharSpec_ascii {c : Char} (h : c.toNat < 128) : quoteCharSpec c = c := by
  have hd : c ∉ smartDoubles := by
    intro hm
    have : 128 ≤ c.toNat := by
      fin_cases hm <;> decide
    omega
  have hs : c ∉ smartSingles := by
    intro hm
    have : 128 ≤ c.toNat := by
      fin_cases hm <;> decide
    omega
  simp [quoteCharSpec, hd, hs]

theorem latin1EncodeIgnore_ascii {s : List Char} (h : ∀ c ∈ s, c.toNat < 128) :
    latin1EncodeIgnore s = s.map Char.toNat := by
  induction s with
  | nil => rfl
  | cons c t ih =>
    have hc : c.toNat ≤ 255 := by have := h c (by simp); omega
    simp only [latin1EncodeIgnore, List.filterMap_cons, hc, if_pos, List.map_cons]
    rw [← latin1EncodeIgnore]
    rw [ih (fun x hx => h x (by simp [hx]))]

theorem utf8Decode_ascii {s : List Char} (h : ∀ c ∈ s, c.toNat < 128) :
    utf8DecodeAux none (s.map Char.toNat) = s := by
  induction s with
  | nil => rfl
  | cons c t ih =>
    have hc : c.toNat < 128 := h c (by simp)
    simp only [List.map_cons, utf8DecodeAux, utf8Lead, hc, if_pos, Char.ofNat_toNat,
      List.cons_append, List.nil_append]
    exact congrArg (c :: ·) (ih (fun x hx => h x (by simp [hx])))

/-- On all-ASCII text with no ampersand, `normalize_quotes` is the identity:
the entity unescape, the Latin-1/UTF-8 re-decode and the replacement loops
are each no-ops. -/
theorem normalize_quotes_ascii_id {s : List Char} (h : ∀ c ∈ s, c.toNat < 128)
    (ha : '&' ∉ s) : normalize_quotes s = s := by
  have hcont : s.contains '&' = false := by simpa using ha
  have h1 : htmlUnescape s = s := by
    simp only [htmlUnescape, hcont, Bool.false_eq_true, if_false]
  rw [normalize_quotes, h1, latin1EncodeIgnore_ascii h, utf8DecodeIgnore,
    utf8Decode_ascii h, quoteFold_eq_map s]
  rw [List.map_congr_left (fun c hc => quoteCharSpec_ascii (h c hc))]
  exact List.map_id s
/-- C3 (corrected): a smart-quote glyph standing literally in the input text
is NOT replaced — `encode('latin-1', errors='ignore')` drops every code point
above U+00FF before the replacement loops run.  Concretely, input `U+201C`
(left double quotation mark, a recognized glyph) produces output `[]`, which
contains no plain double quote. -/
theorem c3_counterexample :
    ([Char.ofNat 8220].contains (Char.ofNat 8220)) = true
    ∧ normalize_quotes [Char.ofNat 8220] = []
    ∧ ((normalize_quotes [Char.ofNat 8220]).contains (Char.ofNat 34)) = false := by
  decide

/-- C3 (amended): the replacement loops substitute the plain double quote and
plain apostrophe positionally for every recognized glyph that reaches them
(`quoteFold` is the positional map `quoteCharSpec`), so the final output of
`normalize_quotes` never contains a smart glyph; glyphs only reach the loops
through the Latin-1/UTF-8 re-decode, e.g. the UTF-8-bytes-as-Latin-1 mojibake
`Ã¢ U+0080 U+009C` decodes to `U+201C` and leaves a plain `"`. -/
theorem c3_smart_quote_replacement (s t : List Char) :
    quoteFold t = t.map quoteCharSpec
    ∧ (∀ c ∈ normalize_quotes s, c ∉ smartDoubles ∧ c ∉ smartSingles)
    ∧ normalize_quotes [Char.ofNat 226, Char.ofNat 128, Char.ofNat 156] =
        [Char.ofNat 34] := by
  refine ⟨quoteFold_eq_map t, ?_, by decide⟩
  intro c hc
  rw [normalize_quotes, quoteFold_eq_map] at hc
  rcases List.mem_map.1 hc with ⟨a, _, rfl⟩
  by_cases hd : a ∈ smartDoubles
  · rw [quoteCharSpec, if_pos hd]
    exact ⟨by decide, by decide⟩
  by_cases hs : a ∈ smartSingles
  · rw [quoteCharSpec, if_neg hd, if_pos hs]
    exact ⟨by decide, by decide⟩
  · rw [quoteCharSpec, if_neg hd, if_neg hs]
    exact ⟨hd, hs⟩

theorem c3_smart_quote_replacement_witness :
    'a' ∉ smartDoubles ∧ 'a' ∉ smartSingles :=
  (c3_smart_quote_replacement ['a'] []).2.1 'a' (by decide)

/-- C10 (confirmed): on all-ASCII input containing no ampersand,
`normalize_quotes` returns its input unchanged — the entity unescape, the
Latin-1/UTF-8 re-decode and both replacement loops are no-ops. -/
theorem c10_ascii_no_amp_identity (s : List Char) (h : ∀ c ∈ s, c.toNat < 128)
    (ha : '&' ∉ s) : normalize_quotes s = s :=
  normalize_quotes_ascii_id h ha

theorem c10_ascii_no_amp_identity_witness :
    normalize_quotes "hello, world".data = "hello, world".data :=
  c10_ascii_no_amp_identity "hello, world".data (by decide) (by decide)

/-- C8 (corrected): `normalize_quotes` is NOT idempotent on every input free
of smart quotes and entity escapes.  `Ã©` (U+00C3 U+00E9) contains neither a
smart glyph nor an ampersand, yet one pass re-decodes it to `Ã©` (U+00E9) and a
second pass deletes that (its Latin-1 byte is a bare UTF-8 lead), so the two
results differ. -/
theorem c8_counterexample :
    ([Char.ofNat 195, Char.ofNat 169].all
        (fun c => !(smartDoubles.contains c) && !(smartSingles.contains c) &&
          !(c == '&'))) = true
    ∧ ((normalize_quotes (normalize_quotes [Char.ofNat 195, Char.ofNat 169]) ==
        normalize_quotes [Char.ofNat 195, Char.ofNat 169])) = false := by
  decide

/-- C8 (amended): `normalize_quotes` is idempotent on inputs on which the
best-effort re-decode is also a no-op — in particular on every all-ASCII
input free of entity escapes, where the first pass is the identity. -/
theorem c8_idempotent_on_ascii (s : List Char) (h : ∀ c ∈ s, c.toNat < 128)
    (ha : '&' ∉ s) :
    normalize_quotes (normalize_quotes s) = normalize_quotes s := by
  rw [normalize_quotes_ascii_id h ha, normalize_quotes_ascii_id h ha]

theorem c8_idempotent_on_ascii_witness :
    normalize_quotes (normalize_quotes "release notes".data) =
      normalize_quotes "release notes".data :=
  c8_idempotent_on_ascii "release notes".data (by decide) (by decide)

/-- C5 (confirmed): `parse_version_date` never raises (it is total) and
follows the claim's case split — a parenthesized group whose content parses
yields that date, with UTC attached exactly when the parse is naive; no
group, or a failing parse, yields `datetime.now(timezone.utc)`. -/
theorem c5_parse_version_date_cases (dp : List Char → Option PyDateTime)
    (clock : Nat) (vt : List Char) :
    (∀ g dt, parenGroup vt = some g → dp g = some dt →
        parse_version_date dp clock vt =
          if dt.tz = none then { dt with tz := some 0 } else dt)
    ∧ (parenGroup vt = none → parse_version_date dp clock vt = utcNow clock)
    ∧ (∀ g, parenGroup vt = some g → dp g = none →
        parse_version_date dp clock vt = utcNow clock) := by
  refine ⟨?_, ?_, ?_⟩
  · intro g dt hg hdp
    simp [parse_version_date, hg, hdp]
  · intro hg
    simp [parse_version_date, hg]
  · intro g hg hdp
    simp [parse_version_date, hg, hdp]

theorem c5_parse_version_date_cases_witness :
    parse_version_date dpMarch 5 "Version 2.1 (March 3, 2024)".data = ⟨77, some 0⟩ := by
  have h := (c5_parse_version_date_cases dpMarch 5
      "Version 2.1 (March 3, 2024)".data).1 "March 3, 2024".data ⟨77, none⟩
      (by decide) (by decide)
  simpa using h

/-- C9 (confirmed): `parse_version_date` always returns a timezone-aware
datetime — the parsed-date branch attaches UTC to a naive result and the
fallback is `datetime.now(timezone.utc)`. -/
theorem c9_always_timezone_aware (dp : List Char → Option PyDateTime)
    (clock : Nat) (vt : List Char) :
    (parse_version_date dp clock vt).tz.isSome = true := by
  rw [parse_version_date]
  cases hg : parenGroup vt with
  | none => rfl
  | some g =>
    cases hdp : dp g with
    | none => simp [hdp, utcNow]
    | some dt =>
      cases htz : dt.tz with
      | none => simp [hdp, htz]
      | some z => simp [hdp, htz]

/-- C1 (code_bug): the spec's worked example does return the claimed label
and one-paragraph body, but the universal statement fails: the collection
loop keeps AT MOST ONE sibling (appending a node to the fragment extracts it
and nulls its `next_sibling`, ending the `next_siblings` generator), so with
two paragraphs before the next heading only the first is returned, while the
spec-side description `collectUntilHeading` keeps both.  The code's own
comment (`# collect following content until next version header`) states the
spec's intent. -/
theorem c1_sibling_collection :
    extractCore ujStub c1ExampleDoc "https://docs.example.com/page" =
      .ok ("Version 2.1 (March 3, 2024)", "<p>Fixed a bug.</p>")
    ∧ extractCore ujStub c1TwoParagraphDoc "https://docs.example.com/page" =
      .ok ("Version 2.1 (March 3, 2024)", "<p>First fix.</p>")
    ∧ serializeList (collectFragment c1TwoParagraphSibs) = "<p>First fix.</p>".data
    ∧ serializeList (collectUntilHeading c1TwoParagraphSibs) =
        "<p>First fix.</p><p>Second fix.</p>".data
    ∧ (∀ sibs : List Node, (collectFragment sibs).length ≤ 1) := by
  refine ⟨by decide, by decide, by decide, by decide, ?_⟩
  intro sibs
  cases sibs with
  | nil => simp [collectFragment]
  | cons a l =>
    by_cases h : isBoundary a = true <;> simp [collectFragment, h]

/-- C4 (code_bug): on a document with no `h2`/`h3`/`h4` at all, neither
script returns `('Release', '')`.  Both compute the dead `'Release'` fallback
and then dereference `header.next_siblings` with `header = None`:
rssfeed.py catches its own `AttributeError` and substitutes the
error placeholder; RSSFEED.py propagates it and the run aborts. -/
theorem c4_no_heading_behaviour :
    ((findHeadingL (fun _ => true) noHeadingDoc).isNone) = true
    ∧ Rssfeed.fetch_latest_release_html ujStub (.ok noHeadingDoc)
        "https://docs.example.com/page" =
      ("Error fetching content", "<p>" ++ attrErrMsg ++ "</p>")
    ∧ RSSFEED.fetch_latest_release_html ujStub (.ok noHeadingDoc)
        "https://docs.example.com/page" = .error attrErrMsg := by
  decide

/-- C2 (corrected): the claimed failure semantics hold for rssfeed.py — the
`try/except` sits inside `fetch_latest_release_html` itself, so the entry
loop yields exactly one placeholder entry per failing source and one entry
per source overall — but the counterexample `c2_counterexample` shows that in
RSSFEED.py, which has no handler, a fetch failure aborts the run. -/
theorem c2_error_placeholder (uj : String → String → String)
    (dp : List Char → Option PyDateTime) (clock : Nat) :
    (∀ sources fetch,
      (Rssfeed.buildHtmlEntries uj dp clock sources fetch).length = sources.length)
    ∧ (∀ name url e,
        Rssfeed.buildHtmlEntries uj dp clock [(name, url)] (fun _ => .error e) =
        [{ title := name ++ ": " ++ "Error fetching content", link := url,
           description := normalizeQuotesS ("<p>" ++ e ++ "</p>"),
           pubDate := parse_version_date dp clock "Error fetching content".data }]) := by
  constructor
  · intro sources fetch
    simp [Rssfeed.buildHtmlEntries]
  · intro name url e
    rfl

/-- C2 (counterexample): in RSSFEED.py a fetch failure on an HTML source is
not caught anywhere — the run aborts with the exception and produces no
entry list at all, rather than one placeholder entry. -/
theorem c2_counterexample :
    RSSFEED.buildHtmlEntries ujStub dpNone 0
      [("Mend SCA", "https://docs.mend.io/sca")] (fun _ => .error "timeout") =
      .error "timeout" := by
  decide

/-- C6 (counterexample): in rssfeed.py an Atom entry whose `<summary>`
element is ABSENT does not produce a placeholder-bodied entry — the
unguarded `entry_xml.summary.text` raises `AttributeError`, the outer
`except` fires, and the source contributes no entry at all. -/
theorem c6_counterexample :
    Rssfeed.githubEntries isoNone 0 "mend Renovate"
      "https://github.com/renovatebot/renovate/releases.atom"
      (.ok [{ title := some "v1.0.0", linkHref := some "https://github.com/r/1",
              summary := none, updated := some "2024-01-01T00:00:00Z" }]) = [] := by
  decide

/-- C6 (amended): with the first entry's `updated` present, rssfeed.py wraps
the normalized summary as `<p>...</p>` when it is non-empty, substitutes the
placeholder only when the summary element is present but with empty (falsy)
text, and SKIPS the source when the element is absent; RSSFEED.py never uses
a placeholder — it always emits `<p>{normalized summary-or-empty}</p>`
(producing `<p></p>` for an absent or empty summary) while still yielding
one entry. -/
theorem c6_summary_handling (iso : String → Option PyDateTime) (clock : Nat)
    (name furl t u lh : String) :
    (∀ s, s ≠ "" →
      Rssfeed.githubEntries iso clock name furl
        (.ok [⟨some t, some lh, some s, some u⟩]) =
        [{ title := name ++ ": " ++ t, link := lh,
           description := "<p>" ++ normalizeQuotesS s ++ "</p>",
           pubDate := match iso (pyReplaceZ u) with
             | some d => d
             | none => utcNow clock }])
    ∧ (Rssfeed.githubEntries iso clock name furl
        (.ok [⟨some t, some lh, some "", some u⟩]) =
        [{ title := name ++ ": " ++ t, link := lh,
           description := "<p>" ++ normalizeQuotesS "See GitHub release for details." ++ "</p>",
           pubDate := match iso (pyReplaceZ u) with
             | some d => d
             | none => utcNow clock }])
    ∧ (Rssfeed.githubEntries iso clock name furl
        (.ok [⟨some t, some lh, none, some u⟩]) = [])
    ∧ (∀ os : Option String,
        RSSFEED.githubEntries iso clock name furl
          (.ok [⟨some t, some lh, os, some u⟩]) =
        .ok [{ title := name ++ ": " ++ t, link := lh,
               description := "<p>" ++ normalizeQuotesS (os.getD "") ++ "</p>",
               pubDate := if u = "" then utcNow clock else
                 match iso (pyReplaceZ u) with
                 | some d => d
                 | none => utcNow clock }]) := by
  refine ⟨?_, by rfl, by rfl, ?_⟩
  · intro s hs
    simp only [Rssfeed.githubEntries, List.head?, Option.getD, bind, Except.bind,
      pure, Except.pure, if_neg hs]
  · intro os
    cases os <;> rfl

theorem c6_summary_handling_witness :
    Rssfeed.githubEntries isoNone 3 "mend Renovate" "https://f.example"
      (.ok [⟨some "v9", some "https://l.example", some "Notes here", some ""⟩]) =
      [{ title := "mend Renovate" ++ ": " ++ "v9", link := "https://l.example",
         description := "<p>" ++ normalizeQuotesS "Notes here" ++ "</p>",
         pubDate := utcNow 3 }] :=
  (c6_summary_handling isoNone 3 "mend Renovate" "https://f.example" "v9" ""
    "https://l.example").1 "Notes here" (by decide)

/-- C7 (counterexample): in rssfeed.py an Atom entry with no `updated`
element does not fall back to the current UTC time — the unguarded
`entry_xml.updated.text` raises `AttributeError`, the outer `except` fires,
and the source yields no entry. -/
theorem c7_counterexample :
    Rssfeed.githubEntries isoNone 0 "mend Renovate"
      "https://github.com/renovatebot/renovate/releases.atom"
      (.ok [{ title := some "v2.0.0", linkHref := some "https://github.com/r/2",
              summary := some "notes", updated := none }]) = [] := by
  decide

/-- C7 (amended): the claimed timestamp semantics hold for RSSFEED.py —
absent or unparseable `updated` falls back to `datetime.now(timezone.utc)`
with the entry still produced, and a parseable value is parsed after every
`Z` (in particular a trailing one) is replaced by `+00:00` — while in
rssfeed.py an absent `updated` makes the source contribute no entry. -/
theorem c7_updated_handling (iso : String → Option PyDateTime) (clock : Nat)
    (name furl t s lh : String) :
    (RSSFEED.githubEntries iso clock name furl
        (.ok [⟨some t, some lh, some s, none⟩]) =
      .ok [{ title := name ++ ": " ++ t, link := lh,
             description := "<p>" ++ normalizeQuotesS s ++ "</p>",
             pubDate := utcNow clock }])
    ∧ (∀ u, u ≠ "" → iso (pyReplaceZ u) = none →
        RSSFEED.githubEntries iso clock name furl
          (.ok [⟨some t, some lh, some s, some u⟩]) =
        .ok [{ title := name ++ ": " ++ t, link := lh,
               description := "<p>" ++ normalizeQuotesS s ++ "</p>",
               pubDate := utcNow clock }])
    ∧ (∀ u dt, u ≠ "" → iso (pyReplaceZ u) = some dt →
        RSSFEED.githubEntries iso clock name furl
          (.ok [⟨some t, some lh, some s, some u⟩]) =
        .ok [{ title := name ++ ": " ++ t, link := lh,
               description := "<p>" ++ normalizeQuotesS s ++ "</p>",
               pubDate := dt }])
    ∧ (Rssfeed.githubEntries iso clock name furl
        (.ok [⟨some t, some lh, some s, none⟩]) = []) := by
  refine ⟨by rfl, ?_, ?_, by rfl⟩
  · intro u hu hiso
    simp only [RSSFEED.githubEntries, List.head?, Option.getD, bind, Except.bind,
      pure, Except.pure, if_neg hu, hiso]
  · intro u dt hu hiso
    simp only [RSSFEED.githubEntries, List.head?, Option.getD, bind, Except.bind,
      pure, Except.pure, if_neg hu, hiso]

theorem c7_updated_handling_witness :
    RSSFEED.githubEntries isoFix 0 "mend Renovate" "https://f.example"
      (.ok [⟨some "v9", some "https://l.example", some "notes",
             some "2024-03-03T12:00:00Z"⟩]) =
      .ok [{ title := "mend Renovate" ++ ": " ++ "v9", link := "https://l.example",
             description := "<p>" ++ normalizeQuotesS "notes" ++ "</p>",
             pubDate := ⟨99, some 0⟩ }] :=
  (c7_updated_handling isoFix 0 "mend Renovate" "https://f.example" "v9" "notes"
    "https://l.example").2.2.1 "2024-03-03T12:00:00Z" ⟨99, some 0⟩ (by decide)
    (by decide)
